import Mathlib

/-!
Shallow embedding of `src/main.py` (PDF text extraction + header
normalization tool), restricted to the ASCII fragment the configuration
and claims exercise.

The normalization core of the source is

    pattern = r"\b{}\b".format(re.escape(alias))   (when whole_word_match)
    pattern = re.escape(alias)                     (otherwise)
    text = re.sub(pattern, canonical_name, text, flags=re.IGNORECASE?)

Because the alias is passed through `re.escape`, the compiled pattern lies
in a tiny fragment of Python regexes: a sequence of literal characters and
word-boundary assertions.  We model that fragment exactly: `re_escape`
reproduces CPython's escaping (everything in its special-character map gets
a backslash), `compile` parses a pattern string of this fragment into
tokens (`Tok.lit`, `Tok.wb`, `Tok.dot` for an unescaped `.`; constructs
outside the fragment parse to `none`), `matchToksAt` is the (deterministic,
backtracking-free) matcher, and `subAllAux` is `re.sub`'s left-to-right
non-overlapping scan, including CPython's handling of empty matches.
`expandRepl` models `re.sub`'s processing of backslash escapes in a string
replacement (`\\` and the character escapes `\n`, `\t`, `\r`); CPython
additionally supports group references and rejects unknown ASCII-letter
escapes, which no pattern or replacement in this development uses.
Word characters (`\w`) and case folding (`re.IGNORECASE`) are modelled on
the ASCII range, matching Python's behaviour on all ASCII text.
-/

namespace PdfNorm

/-- Python `\w` on the ASCII range: `[a-zA-Z0-9_]`. -/
def isWordChar (c : Char) : Bool := c.isAlphanum || c == '_'

/-- Character comparison used by the matcher: exact, or ASCII-case-folded
when `re.IGNORECASE` is set. -/
def charEq (ci : Bool) (a b : Char) : Bool :=
  if ci then a.toLower == b.toLower else a == b

/-- Whether position `i` of the character list holds a word character
(out-of-range counts as non-word, like Python's virtual boundaries). -/
def wordAt (cs : List Char) (i : Nat) : Bool :=
  match cs.get? i with
  | some c => isWordChar c
  | none => false

/-- Python's `\b`: a word boundary at position `i`, i.e. the characters at
`i-1` and `i` disagree on word-ness (positions outside the text are
non-word). -/
def boundaryAt (cs : List Char) (i : Nat) : Bool :=
  (decide (1 ≤ i) && wordAt cs (i - 1)) != wordAt cs i

/-- Tokens of the regex fragment produced by `re.escape` plus `\b`
wrapping: a literal character, a word-boundary assertion, or an unescaped
`.` (any character but newline) — the last never arises from escaped
input but distinguishes escaped from unescaped metacharacters. -/
inductive Tok where
  | lit (c : Char)
  | wb
  | dot
deriving DecidableEq, Repr

/-- CPython's `re._special_chars_map`: the characters `re.escape`
prefixes with a backslash. -/
def isSpecialChar (c : Char) : Bool :=
  c ∈ ['(', ')', '[', ']', '{', '}', '?', '*', '+', '-', '|', '^', '$',
       '\\', '.', '&', '~', '#', ' ', '\t', '\n', '\r', '\x0b', '\x0c']

/-- Regex metacharacters that our fragment does not support unescaped
(every one of them is escaped by `re_escape`, so they never reach
`compile` unescaped from this program's patterns). -/
def isMetaChar (c : Char) : Bool :=
  c ∈ ['^', '$', '*', '+', '?', '{', '}', '[', ']', '|', '(', ')']

/-- `re.escape` on a character list. -/
def escList (s : List Char) : List Char :=
  (s.map (fun c => if isSpecialChar c then ['\\', c] else [c])).flatten

/-- `re.escape(alias)`. -/
def re_escape (s : String) : String := ⟨escList s.data⟩

/-- The pattern string built at lines 72-76 of `src/main.py`:
`r"\b{}\b".format(re.escape(alias))` when whole-word matching is on,
bare `re.escape(alias)` otherwise. -/
def mkPattern (ww : Bool) (al : String) : String :=
  if ww then "\\b" ++ re_escape al ++ "\\b" else re_escape al

/-- Parse a pattern string of the supported fragment into tokens.
`\b` becomes a boundary assertion; a backslash followed by a
non-alphanumeric character is that literal character; an unescaped `.`
is the wildcard; unescaped metacharacters and escape classes such as
`\d` are outside the fragment and yield `none`. -/
def compile : List Char → Option (List Tok)
  | [] => some []
  | c :: rest =>
    if c = '\\' then
      match rest with
      | [] => none
      | d :: rest2 =>
        if d = 'b' then (compile rest2).map (fun ts => Tok.wb :: ts)
        else if d.isAlphanum then none
        else (compile rest2).map (fun ts => Tok.lit d :: ts)
    else if c = '.' then (compile rest).map (fun ts => Tok.dot :: ts)
    else if isMetaChar c then none
    else (compile rest).map (fun ts => Tok.lit c :: ts)

/-- The token form of the pattern `normalize_headers` builds for an
alias: boundary assertions around the alias's literal characters when
whole-word matching is on. -/
def aliasToks (ww : Bool) (al : String) : List Tok :=
  if ww then Tok.wb :: (al.data.map Tok.lit ++ [Tok.wb])
  else al.data.map Tok.lit

/-- Run the token list at position `i`; `some j` is a match ending at
`j` (assertions consume nothing, literals one character). The fragment
has no alternation or quantifiers, so matching is deterministic. -/
def matchToksAt (ci : Bool) (toks : List Tok) (cs : List Char) (i : Nat) :
    Option Nat :=
  match toks with
  | [] => some i
  | Tok.wb :: rest =>
    if boundaryAt cs i then matchToksAt ci rest cs i else none
  | Tok.lit c :: rest =>
    match cs.get? i with
    | some d => if charEq ci c d then matchToksAt ci rest cs (i + 1) else none
    | none => none
  | Tok.dot :: rest =>
    match cs.get? i with
    | some d => if d != '\n' then matchToksAt ci rest cs (i + 1) else none
    | none => none

/-- Literal-run matching: the characters of `pat` appear (under `charEq`)
at positions `i, i+1, …` of `cs`. -/
def litsMatch (ci : Bool) (pat : List Char) (cs : List Char) (i : Nat) : Bool :=
  match pat with
  | [] => true
  | c :: rest =>
    match cs.get? i with
    | some d => charEq ci c d && litsMatch ci rest cs (i + 1)
    | none => false

/-- One replacement-template escape, as `re.sub` expands a string
replacement: `\\` is a backslash, `\n`/`\t`/`\r` the control characters.
(CPython also expands group references and rejects unknown ASCII-letter
escapes; no replacement in this development contains either.) -/
def replEsc (c : Char) : List Char :=
  if c = '\\' then ['\\']
  else if c = 'n' then ['\n']
  else if c = 't' then ['\t']
  else if c = 'r' then ['\r']
  else ['\\', c]

/-- Expand backslash escapes in a string replacement, as `re.sub` does
before inserting it. -/
def expandRepl : List Char → List Char
  | [] => []
  | ['\\'] => ['\\']
  | '\\' :: d :: rest2 => replEsc d ++ expandRepl rest2
  | c :: rest => c :: expandRepl rest

/-- `re.sub`'s scan: from position `i`, try the pattern at each position;
on a non-empty match emit the (expanded) replacement and resume after the
match, on an empty match emit the replacement, then the current character,
and advance one position (CPython's empty-match rule); otherwise copy one
character. `fuel` only bounds the recursion; `text.length + 1` always
suffices because each step advances `i`. -/
def subAllAux (ci : Bool) (toks : List Tok) (repl : List Char)
    (cs : List Char) : Nat → Nat → List Char
  | 0, _ => []
  | fuel + 1, i =>
    if cs.length < i then []
    else
      match matchToksAt ci toks cs i with
      | some j =>
        if i < j then repl ++ subAllAux ci toks repl cs fuel j
        else
          repl ++
            (match cs.get? i with
             | some c => c :: subAllAux ci toks repl cs fuel (i + 1)
             | none => subAllAux ci toks repl cs fuel (i + 1))
      | none =>
        match cs.get? i with
        | some c => c :: subAllAux ci toks repl cs fuel (i + 1)
        | none => []

/-- `re.sub(pattern, repl, text)` for a compiled pattern of the fragment. -/
def re_sub (ci : Bool) (toks : List Tok) (repl : String) (text : String) :
    String :=
  ⟨subAllAux ci toks (expandRepl repl.data) text.data (text.data.length + 1) 0⟩

/-- The `options` record of the header config: each key may be absent
(`options.get(key, True)` supplies the default). -/
structure HeaderOptions where
  case_insensitive : Option Bool
  whole_word_match : Option Bool
deriving DecidableEq, Repr

/-- The header config: `canonical_fields` as an insertion-ordered
association list from canonical name to its alias list (modelling the
dict and each field's `field_data.get("aliases", [])`), plus `options`. -/
structure Config where
  canonical_fields : List (String × List String)
  options : HeaderOptions
deriving DecidableEq, Repr

/-- `options.get("case_insensitive", True)`. -/
def cfgCI (config : Config) : Bool := config.options.case_insensitive.getD true

/-- `options.get("whole_word_match", True)`. -/
def cfgWW (config : Config) : Bool := config.options.whole_word_match.getD true

/-- One alias substitution pass (lines 72-79 of `src/main.py`): build the
pattern, compile it, and run `re.sub` with the canonical name as the
replacement.  Compilation of an escaped alias never fails
(`compile_mkPattern`); the `none` branch is dead code. -/
def applyAlias (ci ww : Bool) (canonical : String) (t : String)
    (al : String) : String :=
  match compile (mkPattern ww al).data with
  | some toks => re_sub ci toks canonical t
  | none => t

/-- `normalize_headers(text, config)` (lines 62-81 of `src/main.py`):
iterate canonical fields in config order and each field's aliases in list
order, rewriting the running text. -/
def normalize_headers (text : String) (config : Config) : String :=
  config.canonical_fields.foldl
    (fun t p => p.2.foldl (applyAlias (cfgCI config) (cfgWW config) p.1) t)
    text

/-- The empty config the endpoint falls back to when the config file is
missing (line 112 of `src/main.py`):
`{"canonical_fields": {}, "options": {}}`. -/
def fallbackConfig : Config :=
  { canonical_fields := [], options := { case_insensitive := none, whole_word_match := none } }

/-! ## PDF extraction (lines 13-26 of `src/main.py`)

`pdfplumber` is an external library; we model a PDF file's observable
behaviour toward this program: either `pdfplumber.open` raises (with the
exception's message), or it yields a list of pages in document order, each
of whose `page.extract_text(...)` calls either raises or returns an
optional string (`None` when nothing is extractable; the source's
`if page_text:` also treats an empty string as no text). -/

/-- Observable behaviour of one PDF toward `extract_text_with_pdfplumber`. -/
inductive PdfBehavior where
  | openError (msg : String)
  | opened (pages : List (Except String (Option String)))
deriving Repr

/-- What the loop body appends for one successfully-extracted page result:
the page's text (plus newline) when truthy, the fixed placeholder
otherwise (lines 20-23 of `src/main.py`). -/
def pageChunk : Option String → String
  | some s => if s = "" then "[No text found on this page]\n" else s ++ "\n"
  | none => "[No text found on this page]\n"

/-- The `for i, page in enumerate(pdf.pages)` loop: append the page header,
then extract; a raising `extract_text` aborts the loop with the exception
(the accumulated text is discarded by the `except` below). -/
def pagesLoop (acc : String) (i : Nat) :
    List (Except String (Option String)) → Except String String
  | [] => Except.ok acc
  | pe :: rest =>
    match pe with
    | Except.error e => Except.error e
    | Except.ok pt =>
      pagesLoop (acc ++ s!"--- Page {i + 1} ---\n" ++ pageChunk pt) (i + 1) rest

/-- The body of the `try:` block — everything that can raise. -/
def extractTry : PdfBehavior → Except String String
  | PdfBehavior.openError e => Except.error e
  | PdfBehavior.opened pages => pagesLoop "" 0 pages

/-- `extract_text_with_pdfplumber(pdf_path)`: the `try`/`except` turns any
failure into the sentinel string `"Error extracting {path}: {e}"`. -/
def extract_text_with_pdfplumber (pdf_path : String) (pdf : PdfBehavior) :
    String :=
  match extractTry pdf with
  | Except.ok text => text
  | Except.error e => s!"Error extracting {pdf_path}: {e}"

/-! ## Batch mode (lines 144-154 of `src/main.py`) -/

/-- Content written to one output file in the batch loop: the source-path
header, the `"=" * 40` separator plus blank line, then the normalized
extraction result. -/
def batchEntry (config : Config) (pdf_file : String) (pdf : PdfBehavior) :
    String :=
  s!"Source: {pdf_file}\n" ++ String.mk (List.replicate 40 '=') ++ "\n\n" ++
    normalize_headers (extract_text_with_pdfplumber pdf_file pdf) config

/-- The batch loop over all discovered PDFs: one output per input file,
in order. -/
def process_pdfs (config : Config) (files : List (String × PdfBehavior)) :
    List String :=
  files.map (fun fp => batchEntry config fp.1 fp.2)

/-! ## Service mode (lines 94-121 of `src/main.py`) -/

/-- Outcome of `load_header_config()` inside the endpoint: the file is
missing (`FileNotFoundError`, caught and replaced by `fallbackConfig`),
or it loads, or loading raises some other exception (e.g. a YAML parse
error), which propagates to the outer handler. -/
inductive ConfigLoad where
  | fileNotFound
  | loaded (config : Config)
  | raisedOther (msg : String)
deriving DecidableEq, Repr

/-- `str.lower()` on the ASCII range. -/
def str_lower (s : String) : String := ⟨s.data.map Char.toLower⟩

/-- `str.endswith(suffix)`. -/
def ends_with (s suffix : String) : Bool := suffix.data.isSuffixOf s.data

/-- The endpoint's HTTP-visible result: an `HTTPException` with status and
detail, or the JSON success payload `{filename, extracted_text}`. -/
inductive EndpointResponse where
  | httpError (status : Nat) (detail : String)
  | success (filename : String) (extracted_text : String)
deriving DecidableEq, Repr

/-- The endpoint's outcome together with its file-system effects on the
temporary upload file. -/
structure EndpointOutcome where
  response : EndpointResponse
  tempFileCreated : Bool
  tempFileRemoved : Bool
deriving DecidableEq, Repr

/-- `extract_text_endpoint` (lines 94-121 of `src/main.py`).  `tmp_path`
is the name of the temporary file the upload is saved to; `pdf` its
behaviour under extraction; `cl` the outcome of `load_header_config()`.
Control flow: non-`.pdf` filenames are rejected with 400 before the
temporary file is written; then extraction runs (never raising — its
failures become the sentinel string), the config is loaded
(`FileNotFoundError` → `fallbackConfig`; any other exception reaches the
`except` and becomes a 500 with the exception's message), the text is
normalized, and the success payload is returned.  The `finally:` removes
the temporary file on every path that created it. -/
def extract_text_endpoint (filename tmp_path : String) (pdf : PdfBehavior)
    (cl : ConfigLoad) : EndpointOutcome :=
  if !(ends_with (str_lower filename) ".pdf") then
    { response := EndpointResponse.httpError 400 "File must be a PDF",
      tempFileCreated := false, tempFileRemoved := false }
  else
    let text := extract_text_with_pdfplumber tmp_path pdf
    match cl with
    | ConfigLoad.raisedOther msg =>
      { response := EndpointResponse.httpError 500 msg,
        tempFileCreated := true, tempFileRemoved := true }
    | ConfigLoad.fileNotFound =>
      { response :=
          EndpointResponse.success filename (normalize_headers text fallbackConfig),
        tempFileCreated := true, tempFileRemoved := true }
    | ConfigLoad.loaded config =>
      { response :=
          EndpointResponse.success filename (normalize_headers text config),
        tempFileCreated := true, tempFileRemoved := true }

/-! ## Named configurations used by the claims -/

/-- The spec's example config: the single alias `"DOB"` mapping to the
canonical field `"DateOfBirth"`, with both options left unset (hence both
defaulting to `True`). -/
def dobConfig : Config :=
  { canonical_fields := [("DateOfBirth", ["DOB"])],
    options := { case_insensitive := none, whole_word_match := none } }

/-- A config whose single alias `"."` consists of a non-word character. -/
def dotConfig : Config :=
  { canonical_fields := [("X", ["."])],
    options := { case_insensitive := none, whole_word_match := none } }

/-- A config whose alias `"b c"` can reappear, spanning a replacement and
its surrounding text, after one round of substitution. -/
def bcConfig : Config :=
  { canonical_fields := [("c", ["b c"])],
    options := { case_insensitive := none, whole_word_match := none } }

/-- A config whose canonical name contains a backslash escape (`\n`). -/
def bsConfig : Config :=
  { canonical_fields := [("\\n", ["a"])],
    options := { case_insensitive := none, whole_word_match := none } }

/-! ## Lemmas about pattern compilation -/

theorem special_not_alphanum (c : Char) (h : isSpecialChar c = true) :
    c.isAlphanum = false := by
  simp only [isSpecialChar, decide_eq_true_eq] at h
  fin_cases h <;> decide

theorem special_ne_b (c : Char) (h : isSpecialChar c = true) : c ≠ 'b' := by
  intro he
  subst he
  exact absurd h (by decide)

theorem not_special_backslash (c : Char) (h : isSpecialChar c = false) :
    c ≠ '\\' := by
  intro he
  subst he
  exact absurd h (by decide)

theorem not_special_dot (c : Char) (h : isSpecialChar c = false) : c ≠ '.' := by
  intro he
  subst he
  exact absurd h (by decide)

theorem meta_special (c : Char) (h : isMetaChar c = true) :
    isSpecialChar c = true := by
  simp only [isMetaChar, decide_eq_true_eq] at h
  fin_cases h <;> decide

theorem not_special_meta (c : Char) (h : isSpecialChar c = false) :
    isMetaChar c = false := by
  cases hm : isMetaChar c
  · rfl
  · rw [meta_special c hm] at h
    exact absurd h (by decide)

/-- Compiling the escape of `s`, followed by any pattern tail, yields the
literal tokens of `s` in front of the tail's compilation: `re.escape`
makes every character of the alias a literal atom. -/
theorem compile_escList (s rest : List Char) :
    compile (escList s ++ rest) =
      (compile rest).map (fun ts => s.map Tok.lit ++ ts) := by
  induction s with
  | nil =>
    simp only [escList, List.map_nil, List.flatten_nil, List.nil_append,
      List.map_nil]
    cases compile rest <;> simp
  | cons c s ih =>
    by_cases hc : isSpecialChar c = true
    · have h1 : escList (c :: s) ++ rest = '\\' :: c :: (escList s ++ rest) := by
        simp [escList, hc]
      rw [h1]
      simp only [compile, if_pos rfl, if_neg (special_ne_b c hc),
        special_not_alphanum c hc, Bool.false_eq_true, if_false]
      rw [ih]
      cases compile rest <;> simp
    · have hc' : isSpecialChar c = false := by
        cases h : isSpecialChar c
        · rfl
        · exact absurd h hc
      have h1 : escList (c :: s) ++ rest = c :: (escList s ++ rest) := by
        simp [escList, hc']
      rw [h1, compile.eq_def]
      simp only [if_neg (not_special_backslash c hc'),
        if_neg (not_special_dot c hc'), not_special_meta c hc',
        Bool.false_eq_true, if_false]
      rw [ih]
      cases compile rest <;> simp

/-- The pattern `normalize_headers` builds always compiles, to boundary
assertions around the alias's literal characters (or just the literals
when whole-word matching is off). -/
theorem compile_mkPattern (ww : Bool) (al : String) :
    compile (mkPattern ww al).data = some (aliasToks ww al) := by
  cases ww
  · have h1 : (mkPattern false al).data = escList al.data ++ [] := by
      simp [mkPattern, re_escape]
    rw [h1, compile_escList]
    simp [aliasToks, compile]
  · have h1 : (mkPattern true al).data =
        '\\' :: 'b' :: (escList al.data ++ ['\\', 'b']) := by
      simp [mkPattern, re_escape, String.data_append]
    rw [h1]
    simp only [compile, if_pos rfl]
    rw [compile_escList]
    simp [aliasToks, compile]

/-- The alias-substitution pass, with the compilation step resolved. -/
theorem applyAlias_eq (ci ww : Bool) (canonical t al : String) :
    applyAlias ci ww canonical t al = re_sub ci (aliasToks ww al) canonical t := by
  unfold applyAlias
  rw [compile_mkPattern]

/-! ## Lemmas about the matcher -/

/-- Matching a literal run followed by any tail: the literals must match
character-wise, after which the tail continues at `i + pat.length`. -/
theorem matchToksAt_lits (ci : Bool) (pat : List Char) (rest : List Tok)
    (cs : List Char) (i : Nat) :
    matchToksAt ci (pat.map Tok.lit ++ rest) cs i =
      if litsMatch ci pat cs i then matchToksAt ci rest cs (i + pat.length)
      else none := by
  induction pat generalizing i with
  | nil => simp [litsMatch]
  | cons c pat ih =>
    simp only [List.map_cons, List.cons_append, matchToksAt, litsMatch]
    by_cases he : ∃ d, cs.get? i = some d
    · obtain ⟨d, hg⟩ := he
      simp only [hg]
      by_cases hce : charEq ci c d = true
      · have harith : i + 1 + pat.length = i + (pat.length + 1) := by omega
        simp [hce, ih, harith]
      · have hce' : charEq ci c d = false := by
          cases h : charEq ci c d
          · rfl
          · exact absurd h hce
        simp [hce']
    · have hg : cs.get? i = none := by
        cases h : cs.get? i
        · rfl
        · exact absurd ⟨_, h⟩ he
      simp only [hg]
      simp

/-- If the literal characters of the alias do not occur at `i`, the
whole-word pattern does not match at `i`. -/
theorem matchToksAt_wb_of_not_lits (ci : Bool) (al cs : List Char) (i : Nat)
    (h : litsMatch ci al cs i = false) :
    matchToksAt ci (Tok.wb :: (al.map Tok.lit ++ [Tok.wb])) cs i = none := by
  simp only [matchToksAt]
  cases hb : boundaryAt cs i
  · rfl
  · rw [matchToksAt_lits, h]
    simp

/-- A whole-word pattern never matches an occurrence embedded in a longer
word: if the occurrence's first and last characters are word characters
and a word character sits directly before or directly after it, one of the
two `\b` assertions fails. -/
theorem matchToksAt_wb_embedded (ci : Bool) (al cs : List Char) (i : Nat)
    (hL : 1 ≤ al.length)
    (h1 : wordAt cs i = true) (h2 : wordAt cs (i + al.length - 1) = true)
    (hadj : (1 ≤ i ∧ wordAt cs (i - 1) = true) ∨ wordAt cs (i + al.length) = true) :
    matchToksAt ci (Tok.wb :: (al.map Tok.lit ++ [Tok.wb])) cs i = none := by
  rcases hadj with ⟨hi, hw⟩ | hw
  · have hb : boundaryAt cs i = false := by
      unfold boundaryAt
      rw [h1, hw, decide_eq_true hi]
      rfl
    simp [matchToksAt, hb]
  · cases hlm : litsMatch ci al cs i
    · exact matchToksAt_wb_of_not_lits ci al cs i hlm
    · have hb2 : boundaryAt cs (i + al.length) = false := by
        unfold boundaryAt
        have h3 : 1 ≤ i + al.length := by omega
        rw [hw, h2, decide_eq_true h3]
        rfl
      simp only [matchToksAt]
      cases hb : boundaryAt cs i
      · rfl
      · rw [matchToksAt_lits, hlm]
        simp [matchToksAt, hb2]

/-- A nonempty literal run can only match strictly inside the text. -/
theorem litsMatch_lt_length (ci : Bool) (c : Char) (pat cs : List Char)
    (i : Nat) (h : litsMatch ci (c :: pat) cs i = true) : i < cs.length := by
  by_contra hcon
  push_neg at hcon
  have hg : cs.get? i = none := List.get?_eq_none.mpr hcon
  unfold litsMatch at h
  rw [hg] at h
  simp at h

/-! ## Lemmas about the substitution scan -/

/-- If the pattern matches nowhere in the text from `i` on, the scan
copies the text unchanged. -/
theorem subAllAux_id (ci : Bool) (toks : List Tok) (repl cs : List Char) :
    ∀ fuel i, cs.length + 1 - i ≤ fuel →
      (∀ k, i ≤ k → k ≤ cs.length → matchToksAt ci toks cs k = none) →
      subAllAux ci toks repl cs fuel i = cs.drop i := by
  intro fuel
  induction fuel with
  | zero =>
    intro i hf _
    have hlt : cs.length < i := by omega
    rw [List.drop_eq_nil_of_le (Nat.le_of_lt hlt)]
    rfl
  | succ fuel ih =>
    intro i hf hnone
    by_cases hi : cs.length < i
    · rw [List.drop_eq_nil_of_le (Nat.le_of_lt hi)]
      simp [subAllAux, hi]
    · have hni := hnone i (Nat.le_refl i) (by omega)
      simp only [subAllAux, if_neg hi, hni]
      cases hg : cs.get? i with
      | some c =>
        rw [ih (i + 1) (by omega) (fun k hk1 hk2 => hnone k (by omega) hk2)]
        have hlt : i < cs.length := (List.get?_eq_some.mp hg).1
        have h6 : some cs[i] = some c := by
          rw [← List.getElem?_eq_getElem hlt, ← List.get?_eq_getElem?]
          exact hg
        rw [List.drop_eq_getElem_cons hlt, Option.some_inj.mp h6]
      | none =>
        have hle : cs.length ≤ i := List.get?_eq_none.mp hg
        rw [List.drop_eq_nil_of_le hle]

/-- `re.sub` with a pattern that matches nowhere in `t` is the identity. -/
theorem re_sub_id (ci : Bool) (toks : List Tok) (repl t : String)
    (h : ∀ k, k ≤ t.data.length → matchToksAt ci toks t.data k = none) :
    re_sub ci toks repl t = t := by
  unfold re_sub
  rw [subAllAux_id ci toks (expandRepl repl.data) t.data (t.data.length + 1) 0
    (by omega) (fun k _ hk2 => h k hk2)]
  rfl

/-- Folding one field's aliases over a text none of whose positions match
any of them leaves the text unchanged. -/
theorem foldl_aliases_id (ci ww : Bool) (cn s : String) (als : List String)
    (h : ∀ a ∈ als, ∀ k, k ≤ s.data.length →
      matchToksAt ci (aliasToks ww a) s.data k = none) :
    als.foldl (applyAlias ci ww cn) s = s := by
  induction als with
  | nil => rfl
  | cons a als ih =>
    simp only [List.foldl_cons]
    rw [applyAlias_eq, re_sub_id ci (aliasToks ww a) cn s
      (h a (List.mem_cons_self a als))]
    exact ih (fun a' ha' => h a' (List.mem_cons_of_mem a ha'))

/-- Folding a list of fields over a text none of whose positions match
any of their aliases leaves the text unchanged. -/
theorem foldl_fields_id (ci ww : Bool) (s : String)
    (l : List (String × List String))
    (h : ∀ p ∈ l, ∀ a ∈ p.2, ∀ k, k ≤ s.data.length →
      matchToksAt ci (aliasToks ww a) s.data k = none) :
    l.foldl (fun t p => p.2.foldl (applyAlias ci ww p.1) t) s = s := by
  induction l with
  | nil => rfl
  | cons p l ih =>
    simp only [List.foldl_cons]
    rw [foldl_aliases_id ci ww p.1 s p.2 (h p (List.mem_cons_self p l))]
    exact ih (fun q hq => h q (List.mem_cons_of_mem p hq))

/-- A text in which no alias of the config matches at any position is a
fixed point of `normalize_headers`. -/
theorem normalize_headers_fixed (config : Config) (s : String)
    (h : ∀ p ∈ config.canonical_fields, ∀ a ∈ p.2, ∀ k, k ≤ s.data.length →
      matchToksAt (cfgCI config) (aliasToks (cfgWW config) a) s.data k = none) :
    normalize_headers s config = s :=
  foldl_fields_id (cfgCI config) (cfgWW config) s config.canonical_fields h

/-! ## Lemmas about the extraction loop -/

theorem str_join_nil : String.join ([] : List String) = "" := rfl

theorem str_join_cons (s : String) (l : List String) :
    String.join (s :: l) = s ++ String.join l := by
  apply String.ext
  simp [String.data_append]

/-- When no page raises, the loop succeeds and emits, in page order, each
page's header line followed by its chunk. -/
theorem pagesLoop_ok (pts : List (Option String)) : ∀ (acc : String) (i : Nat),
    pagesLoop acc i (pts.map Except.ok) =
      Except.ok (acc ++ String.join ((pts.enumFrom i).map
        (fun p => s!"--- Page {p.1 + 1} ---\n" ++ pageChunk p.2))) := by
  induction pts with
  | nil =>
    intro acc i
    simp [pagesLoop, List.enumFrom, str_join_nil, String.append_empty]
  | cons pt pts ih =>
    intro acc i
    simp only [List.map_cons, pagesLoop]
    rw [ih]
    simp [List.enumFrom, str_join_cons, String.append_assoc]

/-- The all-empty special case: `n` pages with no extractable text give
`n` header/placeholder blocks. -/
theorem pagesLoop_replicate_none (n : Nat) : ∀ (acc : String) (i : Nat),
    pagesLoop acc i (List.replicate n (Except.ok (none : Option String))) =
      Except.ok (acc ++ String.join ((List.range' i n).map
        (fun j => s!"--- Page {j + 1} ---\n" ++ "[No text found on this page]\n"))) := by
  induction n with
  | zero =>
    intro acc i
    simp [pagesLoop, List.range', str_join_nil, String.append_empty]
  | succ n ih =>
    intro acc i
    simp only [List.replicate, pagesLoop, pageChunk]
    rw [ih]
    simp [List.range'_succ, str_join_cons, String.append_assoc]

/-- If page `k` raises and every earlier page succeeds, the loop aborts
with page `k`'s exception (the partial text is discarded). -/
theorem pagesLoop_err (msg : String) :
    ∀ (k : Nat) (pages : List (Except String (Option String))) (acc : String)
      (i : Nat),
      pages.get? k = some (Except.error msg) →
      (∀ j, j < k → ∃ pt, pages.get? j = some (Except.ok pt)) →
      pagesLoop acc i pages = Except.error msg := by
  intro k
  induction k with
  | zero =>
    intro pages acc i hk _
    cases pages with
    | nil => exact absurd hk (by simp)
    | cons pe rest =>
      have : pe = Except.error msg := by
        simpa using hk
      subst this
      rfl
  | succ k ih =>
    intro pages acc i hk hprev
    cases pages with
    | nil => exact absurd hk (by simp)
    | cons pe rest =>
      obtain ⟨pt, hpt⟩ := hprev 0 (Nat.succ_pos k)
      have : pe = Except.ok pt := by
        simpa using hpt
      subst this
      simp only [pagesLoop]
      exact ih rest _ (i + 1) (by simpa using hk)
        (fun j hj => by simpa using hprev (j + 1) (Nat.succ_lt_succ hj))

/-- Backslash-free replacements are inserted verbatim by `re.sub`. -/
theorem expandRepl_id (l : List Char) (h : '\\' ∉ l) : expandRepl l = l := by
  induction l with
  | nil => rfl
  | cons c rest ih =>
    have hc : c ≠ '\\' := fun he => h (he ▸ List.mem_cons_self c rest)
    simp [expandRepl, hc, ih (fun hm => h (List.mem_cons_of_mem c hm))]

/-- Resolving the `try`/`except` of `extract_text_with_pdfplumber` on the
failing path. -/
theorem extract_text_err (path : String) (pdf : PdfBehavior) (e : String)
    (h : extractTry pdf = Except.error e) :
    extract_text_with_pdfplumber path pdf = s!"Error extracting {path}: {e}" := by
  unfold extract_text_with_pdfplumber
  rw [h]

/-- Resolving the `try`/`except` of `extract_text_with_pdfplumber` on the
successful path. -/
theorem extract_text_ok (path : String) (pdf : PdfBehavior) (t : String)
    (h : extractTry pdf = Except.ok t) :
    extract_text_with_pdfplumber path pdf = t := by
  unfold extract_text_with_pdfplumber
  rw [h]

/-! ## Claims -/

/-- C1, counterexample: the claim quantifies over *every* alias, but for an
alias made of non-word characters the `\b` anchors invert.  With the alias
`"."` (canonical `"X"`, default options, so `whole_word_match` is true),
the occurrence of `"."` at position 1 of `"a.b"` lies directly between the
word characters `'a'` and `'b'` — embedded in a longer word in the claim's
sense — yet `normalize_headers` rewrites it, yielding `"aXb"`. -/
theorem c1_counterexample :
    normalize_headers "a.b" dotConfig = "aXb" ∧
    cfgWW dotConfig = true ∧
    litsMatch (cfgCI dotConfig) ".".data "a.b".data 1 = true ∧
    wordAt "a.b".data 0 = true ∧ wordAt "a.b".data 2 = true := by
  decide

/-- C1, amended: when `whole_word_match` is true, an occurrence of the
alias that lies inside a longer word — its first and last characters are
word characters and a word character sits directly before or directly
after it — is never replaced: if every occurrence of the alias in the text
is embedded like that, `normalize_headers` leaves the text unchanged.
(The original claim fails for aliases that start or end with a non-word
character, such as `"."`.) -/
theorem c1_amended (ci : Bool) (canonical al text : String)
    (hne : al.data ≠ [])
    (hemb : ∀ i, i < text.data.length → litsMatch ci al.data text.data i = true →
      wordAt text.data i = true ∧
      wordAt text.data (i + al.data.length - 1) = true ∧
      ((1 ≤ i ∧ wordAt text.data (i - 1) = true) ∨
        wordAt text.data (i + al.data.length) = true)) :
    normalize_headers text
      { canonical_fields := [(canonical, [al])],
        options := { case_insensitive := some ci, whole_word_match := some true } } =
      text := by
  apply normalize_headers_fixed
  intro p hp a ha k _
  obtain rfl : p = (canonical, [al]) := by simpa using hp
  obtain rfl : al = a := by
    have := ha
    simp only [List.mem_singleton] at this
    exact this.symm
  show matchToksAt ci (aliasToks true al) text.data k = none
  rw [show aliasToks true al = Tok.wb :: (al.data.map Tok.lit ++ [Tok.wb]) from rfl]
  cases hlm : litsMatch ci al.data text.data k with
  | false => exact matchToksAt_wb_of_not_lits ci al.data text.data k hlm
  | true =>
    obtain ⟨c, cs', hcs⟩ : ∃ c cs', al.data = c :: cs' := by
      cases h : al.data with
      | nil => exact absurd h hne
      | cons c cs' => exact ⟨c, cs', rfl⟩
    have hk2 : k < text.data.length := by
      rw [hcs] at hlm
      exact litsMatch_lt_length ci c cs' text.data k hlm
    obtain ⟨h1, h2, hadj⟩ := hemb k hk2 hlm
    exact matchToksAt_wb_embedded ci al.data text.data k
      (by rw [hcs]; simp) h1 h2 hadj

/-- Witness for C1 (amended) at the spec's own example: `"DOB"` embedded
in `"DOBSON"` is not replaced. -/
theorem c1_amended_witness :
    normalize_headers "DOBSON"
      { canonical_fields := [("DateOfBirth", ["DOB"])],
        options := { case_insensitive := some true, whole_word_match := some true } } =
      "DOBSON" :=
  c1_amended true "DateOfBirth" "DOB" "DOBSON" (by decide) (by decide)

/-- C2: with the empty config — exactly the fallback the endpoint builds
when the config file is missing — `normalize_headers` is the identity, and
the endpoint's missing-config path returns the extraction result
unchanged. -/
theorem c2_empty_config_identity (t filename tmp_path : String)
    (pdf : PdfBehavior)
    (hname : ends_with (str_lower filename) ".pdf" = true) :
    normalize_headers t fallbackConfig = t ∧
    (extract_text_endpoint filename tmp_path pdf ConfigLoad.fileNotFound).response =
      EndpointResponse.success filename
        (extract_text_with_pdfplumber tmp_path pdf) := by
  refine ⟨rfl, ?_⟩
  unfold extract_text_endpoint
  rw [hname]
  rfl

/-- Witness for C2 at a concrete text and upload. -/
theorem c2_empty_config_identity_witness :
    normalize_headers "DOB: 1990" fallbackConfig = "DOB: 1990" ∧
    (extract_text_endpoint "f.pdf" "tmp123.pdf" (PdfBehavior.opened [])
      ConfigLoad.fileNotFound).response =
      EndpointResponse.success "f.pdf"
        (extract_text_with_pdfplumber "tmp123.pdf" (PdfBehavior.opened [])) :=
  c2_empty_config_identity "DOB: 1990" "f.pdf" "tmp123.pdf"
    (PdfBehavior.opened []) (by decide)

/-- C3: with the config mapping alias `"DOB"` to canonical
`"DateOfBirth"` and both options left unset (hence defaulting to true),
`normalize_headers "dob: 1990"` is `"DateOfBirth: 1990"`. -/
theorem c3_dob_example :
    normalize_headers "dob: 1990" dobConfig = "DateOfBirth: 1990" := by
  decide

/-- C4, counterexample: for `bcConfig` (single field `"c"` with single
alias `"b c"`, default options) no alias pattern matches anywhere inside
any canonical field name — the claim's hypothesis, in its strongest
reading — yet normalization of `"b b c"` is not idempotent: one pass gives
`"b c"` (creating a fresh occurrence of the alias spanning the replacement
and the text before it), a second pass gives `"c"`. -/
theorem c4_counterexample :
    (∀ p ∈ bcConfig.canonical_fields, ∀ q ∈ bcConfig.canonical_fields,
      ∀ a ∈ q.2, ∀ i, i ≤ p.1.data.length →
        matchToksAt (cfgCI bcConfig) (aliasToks (cfgWW bcConfig) a)
          p.1.data i = none) ∧
    normalize_headers (normalize_headers "b b c" bcConfig) bcConfig ≠
      normalize_headers "b b c" bcConfig := by
  decide

/-- C4, amended: applying normalization twice equals applying it once
whenever the first application's output is free of alias matches — i.e.
once all aliases have actually been eliminated from the text.  (The
claim's own hypothesis — no canonical name is itself an alias — is not
sufficient, because a substitution can create a new occurrence of an alias
spanning the replacement and the surrounding text, as `c4_counterexample`
shows.) -/
theorem c4_amended (config : Config) (t : String)
    (h : ∀ p ∈ config.canonical_fields, ∀ a ∈ p.2, ∀ k,
      k ≤ (normalize_headers t config).data.length →
      matchToksAt (cfgCI config) (aliasToks (cfgWW config) a)
        (normalize_headers t config).data k = none) :
    normalize_headers (normalize_headers t config) config =
      normalize_headers t config :=
  normalize_headers_fixed config (normalize_headers t config) h

/-- Witness for C4 (amended): the spec's example text, fully normalized,
is a fixed point. -/
theorem c4_amended_witness :
    normalize_headers (normalize_headers "dob: 1990" dobConfig) dobConfig =
      normalize_headers "dob: 1990" dobConfig :=
  c4_amended dobConfig "dob: 1990" (by decide)

/-- C5, counterexample: the replacement is *not* inserted literally —
`re.sub` expands backslash escapes in it.  With canonical name `\n` (the
two characters backslash and `n`) for alias `"a"`, normalizing `"a"`
produces the one-character newline string, not the two-character canonical
name. -/
theorem c5_counterexample :
    normalize_headers "a" bsConfig = "\n" ∧
    normalize_headers "a" bsConfig ≠ "\\n" := by
  decide

/-- C5, amended: aliases are treated literally — escaping makes every
character of the alias a literal atom of the compiled pattern, for any
alias — while the canonical replacement is subject to `re.sub`'s
template processing and is inserted verbatim only when it contains no
backslash. -/
theorem c5_amended (ww : Bool) (al cn : String) (h : '\\' ∉ cn.data) :
    compile (mkPattern ww al).data = some (aliasToks ww al) ∧
    expandRepl cn.data = cn.data :=
  ⟨compile_mkPattern ww al, expandRepl_id cn.data h⟩

/-- Witness for C5 (amended): the metacharacter alias `"."` compiles to a
literal-dot pattern, and the backslash-free replacement `"DateOfBirth"`
expands to itself. -/
theorem c5_amended_witness :
    compile (mkPattern true ".").data = some (aliasToks true ".") ∧
    expandRepl "DateOfBirth".data = "DateOfBirth".data :=
  c5_amended true "." "DateOfBirth" (by decide)

/-- C6: every extraction failure — a failing open, or a page raising
mid-iteration after any number of successful pages — is caught and
returned as the sentinel string `"Error extracting {path}: {msg}"` rather
than propagated, and the batch loop therefore produces one output per
input file no matter what the files' behaviours are. -/
theorem c6_errors_returned (path msg : String)
    (pages : List (Except String (Option String))) (k : Nat)
    (config : Config) (files : List (String × PdfBehavior))
    (hk : pages.get? k = some (Except.error msg))
    (hprev : ∀ j, j < k → ∃ pt, pages.get? j = some (Except.ok pt)) :
    extract_text_with_pdfplumber path (PdfBehavior.openError msg) =
      s!"Error extracting {path}: {msg}" ∧
    extract_text_with_pdfplumber path (PdfBehavior.opened pages) =
      s!"Error extracting {path}: {msg}" ∧
    (process_pdfs config files).length = files.length := by
  refine ⟨rfl, ?_, by simp [process_pdfs]⟩
  exact extract_text_err path (PdfBehavior.opened pages) msg
    (pagesLoop_err msg k pages "" 0 hk hprev)

/-- Witness for C6: a PDF whose second page raises after a good first
page, and a two-file batch containing a failing file. -/
theorem c6_errors_returned_witness :
    extract_text_with_pdfplumber "doc.pdf" (PdfBehavior.openError "bad stream") =
      "Error extracting doc.pdf: bad stream" ∧
    extract_text_with_pdfplumber "doc.pdf"
        (PdfBehavior.opened [Except.ok (some "hello"), Except.error "bad stream"]) =
      "Error extracting doc.pdf: bad stream" ∧
    (process_pdfs fallbackConfig
      [("a.pdf", PdfBehavior.openError "x"),
       ("b.pdf", PdfBehavior.opened [])]).length = 2 :=
  c6_errors_returned "doc.pdf" "bad stream"
    [Except.ok (some "hello"), Except.error "bad stream"] 1
    fallbackConfig
    [("a.pdf", PdfBehavior.openError "x"), ("b.pdf", PdfBehavior.opened [])]
    rfl
    (fun j hj => ⟨some "hello", by
      have hj0 : j = 0 := by omega
      subst hj0
      rfl⟩)

/-- C7: a readable PDF is walked in document order — the output is the
concatenation, page by page in order, of the page header followed by the
page's text, with the fixed placeholder standing in for every page that
yields no text; in particular a PDF all of whose `n` pages yield nothing
produces exactly one placeholder block per page, with no failure. -/
theorem c7_page_order (path : String) (pts : List (Option String)) (n : Nat) :
    extract_text_with_pdfplumber path (PdfBehavior.opened (pts.map Except.ok)) =
      String.join (pts.enum.map
        (fun p => s!"--- Page {p.1 + 1} ---\n" ++ pageChunk p.2)) ∧
    extract_text_with_pdfplumber path
        (PdfBehavior.opened (List.replicate n (Except.ok none))) =
      String.join ((List.range n).map
        (fun i => s!"--- Page {i + 1} ---\n" ++ "[No text found on this page]\n")) := by
  constructor
  · rw [extract_text_ok path (PdfBehavior.opened (pts.map Except.ok)) _
      (pagesLoop_ok pts "" 0)]
    simp [List.enum, String.empty_append]
  · rw [extract_text_ok path (PdfBehavior.opened (List.replicate n (Except.ok none))) _
      (pagesLoop_replicate_none n "" 0), List.range_eq_range']
    simp [String.empty_append]

/-- C8, counterexample: extraction failures never raise — they are caught
inside `extract_text_with_pdfplumber` and turned into the sentinel string
— so the endpoint answers a failed extraction with a *success* payload
whose `extracted_text` is the sentinel, not with HTTP 500. -/
theorem c8_counterexample :
    (extract_text_endpoint "a.pdf" "tmp.pdf" (PdfBehavior.openError "boom")
      (ConfigLoad.loaded fallbackConfig)).response =
      EndpointResponse.success "a.pdf" "Error extracting tmp.pdf: boom" ∧
    (extract_text_endpoint "a.pdf" "tmp.pdf" (PdfBehavior.openError "boom")
      (ConfigLoad.loaded fallbackConfig)).response ≠
      EndpointResponse.httpError 500 "boom" := by
  decide

/-- C8, amended: only exceptions that actually reach the endpoint's `try`
block — e.g. a config-load failure other than `FileNotFoundError` —
produce HTTP 500 with the exception's message; a failure inside
extraction instead yields a 200 success payload whose `extracted_text` is
the normalized sentinel error string. -/
theorem c8_amended (filename tmp_path msg e : String) (pdf : PdfBehavior)
    (config : Config)
    (hname : ends_with (str_lower filename) ".pdf" = true)
    (hext : extractTry pdf = Except.error e) :
    (extract_text_endpoint filename tmp_path pdf
      (ConfigLoad.raisedOther msg)).response =
      EndpointResponse.httpError 500 msg ∧
    (extract_text_endpoint filename tmp_path pdf
      (ConfigLoad.loaded config)).response =
      EndpointResponse.success filename
        (normalize_headers s!"Error extracting {tmp_path}: {e}" config) := by
  have htext : extract_text_with_pdfplumber tmp_path pdf =
      s!"Error extracting {tmp_path}: {e}" := extract_text_err tmp_path pdf e hext
  constructor
  · simp [extract_text_endpoint, hname]
  · simp [extract_text_endpoint, hname, htext]

/-- Witness for C8 (amended): a YAML-style config error gives 500; a
failing extraction with a loaded config gives the success payload with the
normalized sentinel. -/
theorem c8_amended_witness :
    (extract_text_endpoint "a.pdf" "t.pdf" (PdfBehavior.openError "boom")
      (ConfigLoad.raisedOther "while parsing a block mapping")).response =
      EndpointResponse.httpError 500 "while parsing a block mapping" ∧
    (extract_text_endpoint "a.pdf" "t.pdf" (PdfBehavior.openError "boom")
      (ConfigLoad.loaded dobConfig)).response =
      EndpointResponse.success "a.pdf"
        (normalize_headers "Error extracting t.pdf: boom" dobConfig) :=
  c8_amended "a.pdf" "t.pdf" "while parsing a block mapping" "boom"
    (PdfBehavior.openError "boom") dobConfig (by decide) rfl

/-- C9: an upload whose filename does not end in `.pdf` (case-folded) is
rejected with HTTP 400 before any processing: no temporary file is
created, nothing is removed, and neither extraction nor config loading
can influence the outcome. -/
theorem c9_reject_non_pdf (filename tmp_path : String) (pdf : PdfBehavior)
    (cl : ConfigLoad)
    (hname : ends_with (str_lower filename) ".pdf" = false) :
    extract_text_endpoint filename tmp_path pdf cl =
      { response := EndpointResponse.httpError 400 "File must be a PDF",
        tempFileCreated := false, tempFileRemoved := false } := by
  simp [extract_text_endpoint, hname]

/-- Witness for C9 at a concrete non-PDF upload. -/
theorem c9_reject_non_pdf_witness :
    extract_text_endpoint "evil.txt" "t.pdf" (PdfBehavior.opened [])
      ConfigLoad.fileNotFound =
      { response := EndpointResponse.httpError 400 "File must be a PDF",
        tempFileCreated := false, tempFileRemoved := false } :=
  c9_reject_non_pdf "evil.txt" "t.pdf" (PdfBehavior.opened [])
    ConfigLoad.fileNotFound (by decide)

/-- C10: in both batch and service mode, the sentinel error string of a
failed extraction is itself passed through `normalize_headers` with the
active config before being written to the output file or returned as
`extracted_text`. -/
theorem c10_sentinel_normalized (config : Config)
    (path filename tmp_path e : String) (pdf : PdfBehavior)
    (hext : extractTry pdf = Except.error e)
    (hname : ends_with (str_lower filename) ".pdf" = true) :
    batchEntry config path pdf =
      s!"Source: {path}\n" ++ String.mk (List.replicate 40 '=') ++ "\n\n" ++
        normalize_headers s!"Error extracting {path}: {e}" config ∧
    (extract_text_endpoint filename tmp_path pdf
      (ConfigLoad.loaded config)).response =
      EndpointResponse.success filename
        (normalize_headers s!"Error extracting {tmp_path}: {e}" config) := by
  have htext : ∀ p : String,
      extract_text_with_pdfplumber p pdf = s!"Error extracting {p}: {e}" :=
    fun p => extract_text_err p pdf e hext
  constructor
  · unfold batchEntry
    rw [htext path]
  · simp [extract_text_endpoint, hname, htext tmp_path]

/-- Witness for C10 with the alias `"DOB"` occurring in the failing path
and in the exception message, so the reported error itself gets
normalized. -/
theorem c10_sentinel_normalized_witness :
    batchEntry dobConfig "scan-DOB.pdf" (PdfBehavior.openError "missing DOB table") =
      "Source: scan-DOB.pdf\n" ++ String.mk (List.replicate 40 '=') ++ "\n\n" ++
        normalize_headers "Error extracting scan-DOB.pdf: missing DOB table" dobConfig ∧
    (extract_text_endpoint "u.pdf" "tmpXYZ.pdf"
      (PdfBehavior.openError "missing DOB table")
      (ConfigLoad.loaded dobConfig)).response =
      EndpointResponse.success "u.pdf"
        (normalize_headers "Error extracting tmpXYZ.pdf: missing DOB table" dobConfig) :=
  c10_sentinel_normalized dobConfig "scan-DOB.pdf" "u.pdf" "tmpXYZ.pdf"
    "missing DOB table" (PdfBehavior.openError "missing DOB table")
    rfl (by decide)

end PdfNorm
